import Mathlib

/-!
Verification of `cibuildwheel/docker_container.py`.

We shallowly embed the pure content of `DockerContainer`:
* Python strings are modelled as `List Char`; Python `str` slicing,
  `str.endswith` and `int()` are modelled by `pySlice`, `pyEndsWith`
  and `pyInt` below.
* The read loop of `DockerContainer.call` (lines 140-156) is `readLoop`;
  the surrounding return/raise logic (lines 110-163) is `call`.
* The footer emitted by the remote shell (`printf "%04d%s\n" $? token`,
  line 130) is `footerLine`.
* `shlex.split` (POSIX mode, as used by `environment_executor`,
  line 174) is `shlexSplit`.
* The side-effecting methods `__exit__`, `copy_into` and `copy_out`
  are modelled as traces of `Effect`s in program order.
-/

set_option autoImplicit false

namespace DockerContainer

/-- Python whitespace characters recognised by `str.strip()` / `int()`
(ASCII subset; the inputs in this development are ASCII). -/
def pyWsChars : List Char := [' ', '\t', '\n', Char.ofNat 11, Char.ofNat 12, '\r']

/-- Whether a character is Python whitespace. -/
def isPyWs (c : Char) : Bool := c ∈ pyWsChars

/-- Model of Python `str.strip()`: remove leading and trailing whitespace. -/
def pyStrip (cs : List Char) : List Char :=
  ((cs.dropWhile isPyWs).reverse.dropWhile isPyWs).reverse

/-- Whether a character is an ASCII decimal digit. -/
def isDecDigit (c : Char) : Bool := '0' ≤ c && c ≤ '9'

/-- Decimal value of a digit string, most significant digit first. -/
def digitsToNat (cs : List Char) : Nat :=
  cs.foldl (fun a c => 10 * a + (c.toNat - 48)) 0

/-- Parse a nonempty all-digit string as a `Nat`; `none` otherwise. -/
def parseUnsigned (cs : List Char) : Option Nat :=
  if cs.isEmpty then none
  else if cs.all isDecDigit then some (digitsToNat cs) else none

/-- Model of Python `int(s)` for decimal literals: strip whitespace,
optional sign, then a nonempty run of digits; raises (`none`) otherwise.
(Underscore digit grouping and non-ASCII digits, which never occur in
this program's inputs, are not modelled.) -/
def pyInt (cs : List Char) : Option Int :=
  match pyStrip cs with
  | [] => none
  | c :: rest =>
    if c = '+' then (parseUnsigned rest).map Int.ofNat
    else if c = '-' then (parseUnsigned rest).map (fun n => -(n : Int))
    else (parseUnsigned (c :: rest)).map Int.ofNat

/-- Normalise a Python slice index against a length: negative indices
count from the end, and both ends are clamped to `[0, len]`. -/
def pyIdx (len : Nat) (i : Int) : Nat :=
  if i < 0 then (max 0 ((len : Int) + i)).toNat else min len i.toNat

/-- Model of Python `s[a:b]` on strings. -/
def pySlice (l : List Char) (a b : Int) : List Char :=
  (l.take (pyIdx l.length b)).drop (pyIdx l.length a)

/-- Model of Python `line.endswith(suf)`. -/
def pyEndsWith (line suf : List Char) : Bool :=
  decide (suf.length ≤ line.length) &&
  decide (line.drop (line.length - suf.length) = suf)

/-- Decimal rendering, fuel-based so that it reduces in the kernel:
`fuel` bounds the recursion depth and any `fuel > n` is enough. -/
def toDecimalAux : Nat → Nat → List Char
  | 0, _ => []
  | fuel + 1, n =>
    if n < 10 then [Nat.digitChar n]
    else toDecimalAux fuel (n / 10) ++ [Nat.digitChar (n % 10)]

/-- Decimal rendering of a natural number, most significant digit first
(the `%d` of `printf`). -/
def toDecimal (n : Nat) : List Char := toDecimalAux (n + 1) n

/-- Model of `printf "%04d"`: zero-pad the decimal rendering to at
least four characters. -/
def printf04d (n : Nat) : List Char :=
  List.replicate (4 - (toDecimal n).length) '0' ++ toDecimal n

/-- The footer line the remote shell is told to print
(`printf "%04d%s\n" $? {end_of_message}`, docker_container.py line 130):
the 4-digit zero-padded exit status, the delimiter token, a newline. -/
def footerLine (status : Nat) (token : List Char) : List Char :=
  printf04d status ++ token ++ ['\n']

/-- How the read loop of `call` ended. -/
inductive LoopStatus where
  /-- A footer-matching line was found and its status field parsed. -/
  | done (returncode : Int)
  /-- `int()` raised `ValueError` on the status field. -/
  | valueError
  /-- The stream ended with no footer line: `readline` returns `''`
  forever and the loop never terminates. -/
  | hang
deriving DecidableEq

/-- Result of the read loop: the bytes written to the output sink
(`output_io.write`), and how the loop ended. -/
structure LoopOut where
  written : List Char
  status : LoopStatus
deriving DecidableEq

/-- The read loop of `call` (docker_container.py lines 140-156).
`lines` is the sequence of results of `self.bash_stdout.readline()`;
`acc` the bytes written to `output_io` so far.  A line ending in the
delimiter token plus newline is the footer: the 4 characters before the
token are parsed as the exit status, and only the part of the line
before them is written.  Every other line is written whole. -/
def readLoop (token : List Char) : List (List Char) → List Char → LoopOut
  | [], acc => ⟨acc, LoopStatus.hang⟩
  | line :: rest, acc =>
    if pyEndsWith line (token ++ ['\n']) then
      match pyInt (pySlice line ((line.length : Int) - 1 - (token.length : Int) - 4)
                               (((line.length : Int) - 1 - (token.length : Int) - 4) + 4)) with
      | some rc =>
          ⟨acc ++ pySlice line 0 ((line.length : Int) - 1 - (token.length : Int) - 4),
           LoopStatus.done rc⟩
      | none => ⟨acc, LoopStatus.valueError⟩
    else readLoop token rest (acc ++ line)

/-- Python `subprocess.CalledProcessError(returncode, cmd, output)` as
raised by `call` (docker_container.py line 161). -/
structure CalledProcessError where
  returncode : Int
  cmd : List (List Char)
  output : Option (List Char)
deriving DecidableEq

/-- What `call` does after the read loop: return a string, raise
`CalledProcessError`, raise `ValueError` from `int()`, or hang. -/
inductive CallOutcome where
  | ok (ret : List Char)
  | err (e : CalledProcessError)
  | valueError
  | hang
deriving DecidableEq

/-- The return/raise logic after the read loop (docker_container.py
lines 156-163): `output` is the captured `StringIO` value when
`capture_output` was requested, `None` otherwise; non-zero status
raises, zero status returns `output if output else ''`. -/
def callOutcome (args : List (List Char)) (captureOutput : Bool) (lo : LoopOut) : CallOutcome :=
  match lo.status with
  | LoopStatus.hang => CallOutcome.hang
  | LoopStatus.valueError => CallOutcome.valueError
  | LoopStatus.done rc =>
    if rc ≠ 0 then
      CallOutcome.err ⟨rc, args, if captureOutput then some lo.written else none⟩
    else
      CallOutcome.ok ((if captureOutput then some lo.written else none).getD [])

/-- One observable run of `call`: the bytes written to `sys.stdout`
(the live sink used when `capture_output` is false, lines 135-138) and
the outcome. -/
structure CallRun where
  stdoutBytes : List Char
  outcome : CallOutcome
deriving DecidableEq

/-- `DockerContainer.call` (docker_container.py lines 110-163).
`env` and `cwd` are forwarded to the remote shell only; they influence
the observed behaviour solely through `lines`, the sequence of lines
the remote shell sends back, which is a parameter here.  `token` is the
freshly generated `end_of_message` delimiter. -/
def call (args : List (List Char)) (env : List (List Char × List Char))
    (captureOutput : Bool) (cwd : Option (List Char))
    (lines : List (List Char)) (token : List Char) : CallRun :=
  ⟨if captureOutput then [] else (readLoop token lines []).written,
   callOutcome args captureOutput (readLoop token lines [])⟩

/-! ### `shlex.split` (POSIX mode), as used by `environment_executor` -/

/-- The apostrophe character. -/
def sq : Char := Char.ofNat 39

/-- The double-quote character. -/
def dq : Char := Char.ofNat 34

/-- Shell whitespace used by `shlex` for word splitting. -/
def isShellWs (c : Char) : Bool := c = ' ' || c = '\t' || c = '\r' || c = '\n'

/-- Lexer mode of `shlex`: outside quotes, inside single quotes,
inside double quotes. -/
inductive ShMode where
  | norm
  | inSingle
  | inDouble
deriving DecidableEq

/-- Model of CPython `shlex` token reading in POSIX mode with
`whitespace_split=True` (what `shlex.split` uses): words split on
whitespace; single quotes are literal; inside double quotes a backslash
escapes only `"` and `\` (otherwise the backslash is kept); outside
quotes a backslash escapes the next character.  An unterminated quote
or a trailing escape raises `ValueError` (`none`). -/
def shlexSplitAux : List Char → ShMode → List Char → Bool → List (List Char) →
    Option (List (List Char))
  | [], ShMode.norm, acc, started, toks =>
      some (if started then toks ++ [acc] else toks)
  | [], ShMode.inSingle, _, _, _ => none
  | [], ShMode.inDouble, _, _, _ => none
  | c :: rest, ShMode.norm, acc, started, toks =>
    if isShellWs c then
      shlexSplitAux rest ShMode.norm [] false (if started then toks ++ [acc] else toks)
    else if c = sq then shlexSplitAux rest ShMode.inSingle acc true toks
    else if c = dq then shlexSplitAux rest ShMode.inDouble acc true toks
    else if c = '\\' then
      match rest with
      | [] => none
      | e :: rest2 => shlexSplitAux rest2 ShMode.norm (acc ++ [e]) true toks
    else shlexSplitAux rest ShMode.norm (acc ++ [c]) true toks
  | c :: rest, ShMode.inSingle, acc, _, toks =>
    if c = sq then shlexSplitAux rest ShMode.norm acc true toks
    else shlexSplitAux rest ShMode.inSingle (acc ++ [c]) true toks
  | c :: rest, ShMode.inDouble, acc, _, toks =>
    if c = dq then shlexSplitAux rest ShMode.norm acc true toks
    else if c = '\\' then
      match rest with
      | [] => none
      | e :: rest2 =>
        if e = dq || e = '\\' then shlexSplitAux rest2 ShMode.inDouble (acc ++ [e]) true toks
        else shlexSplitAux rest2 ShMode.inDouble (acc ++ ['\\', e]) true toks
    else shlexSplitAux rest ShMode.inDouble (acc ++ [c]) true toks

/-- Model of `shlex.split`. -/
def shlexSplit (s : List Char) : Option (List (List Char)) :=
  shlexSplitAux s ShMode.norm [] false []

/-- `DockerContainer.environment_executor` (docker_container.py lines
172-174): `self.call(shlex.split(command), env=environment)` — note
`capture_output` is left at its default `False` and `cwd` at `None`. -/
def environment_executor (command : List Char) (environment : List (List Char × List Char))
    (lines : List (List Char)) (token : List Char) : Option CallRun :=
  (shlexSplit command).map (fun args => call args environment false none lines token)

/-! ### Effect traces for `__exit__`, `copy_into`, `copy_out` -/

/-- A command passed to `subprocess.run`: an argument vector
(`shell=False`) or a shell command line (`shell=True`). -/
inductive Cmd where
  | argv (args : List (List Char))
  | sh (line : List Char)
deriving DecidableEq

/-- One observable side effect of a `DockerContainer` method, in
program order. -/
inductive Effect where
  /-- `self.bash_stdin.close()` — close the shell's write channel. -/
  | closeStdin
  /-- `self.process.terminate()`. -/
  | terminate
  /-- `self.process.wait()`. -/
  | waitProc
  /-- `subprocess.run(c, check=check, cwd=cwd)`. -/
  | run (c : Cmd) (check : Bool) (cwd : Option (List Char))
  /-- `self.call(args)` — a command through the Execution Protocol,
  i.e. through the shared interactive shell. -/
  | protoCall (args : List (List Char))
  /-- `path.mkdir(parents=parents, exist_ok=existOk)`. -/
  | mkdir (path : List Char) (parents : Bool) (existOk : Bool)
deriving DecidableEq

/-- `DockerContainer.__exit__` (docker_container.py lines 64-70) as a
trace of effects in program order.  The final `subprocess.run` is
invoked without `check=True`. -/
def dockerExit (containerName : List Char) : List Effect :=
  [Effect.closeStdin, Effect.terminate, Effect.waitProc,
   Effect.run
     (Cmd.argv ["docker".toList, "rm".toList, "--force".toList, "-v".toList, containerName])
     false none]

/-- Whether executing a trace raises no `CalledProcessError`, given the
exit status `rcOf c` of each spawned command: `subprocess.run` raises
exactly when `check=True` and the status is non-zero. -/
def completesWithout (effs : List Effect) (rcOf : Cmd → Int) : Bool :=
  effs.all fun e =>
    match e with
    | Effect.run c check _ => !check || rcOf c == 0
    | _ => true

/-- `DockerContainer.copy_into` (docker_container.py lines 72-88) as a
trace of effects; `fromIsDir` is the value of `from_path.is_dir()`. -/
def copy_into (containerName fromPath toPath : List Char) (fromIsDir : Bool) : List Effect :=
  if fromIsDir then
    [Effect.protoCall ["mkdir".toList, "-p".toList, toPath],
     Effect.run
       (Cmd.sh ("tar cf - . | docker exec -i ".toList ++ containerName ++
                " tar -xC ".toList ++ toPath ++ " -f -".toList))
       true (some fromPath)]
  else
    [Effect.run
       (Cmd.sh ("cat ".toList ++ fromPath ++ " | docker exec -i ".toList ++ containerName ++
                " sh -c ".toList ++ [dq] ++ "cat > ".toList ++ toPath ++ [dq]))
       true none]

/-- `DockerContainer.copy_out` (docker_container.py lines 90-99) as a
trace of effects. -/
def copy_out (containerName fromPath toPath : List Char) : List Effect :=
  [Effect.mkdir toPath true true,
   Effect.run
     (Cmd.sh ("docker exec -i ".toList ++ containerName ++
              " tar -cC ".toList ++ fromPath ++ " -f - . | tar -xf -".toList))
     true (some toPath)]

/-- Whether `pathlib.Path.mkdir(parents=parents, exist_ok=existOk)`
raises, given whether the path already exists and whether some parent
is missing: `FileExistsError` unless `exist_ok`, `FileNotFoundError`
unless `parents`. -/
def mkdirRaises (parents existOk pathExists parentMissing : Bool) : Bool :=
  (pathExists && !existOk) || (parentMissing && !parents)

/-! ### Lemmas: decimal digits and `printf "%04d"` -/

theorem digitChar_isDecDigit (d : Nat) (h : d < 10) :
    isDecDigit (Nat.digitChar d) = true := by
  interval_cases d <;> decide

theorem digitChar_val (d : Nat) (h : d < 10) : (Nat.digitChar d).toNat - 48 = d := by
  interval_cases d <;> decide

theorem digitsToNat_append_singleton (xs : List Char) (c : Char) :
    digitsToNat (xs ++ [c]) = 10 * digitsToNat xs + (c.toNat - 48) := by
  simp [digitsToNat, List.foldl_append]

theorem toDecimalAux_ne_nil (fuel n : Nat) (h : n < fuel) : toDecimalAux fuel n ≠ [] := by
  cases fuel with
  | zero => omega
  | succ fuel =>
    rw [toDecimalAux]
    split
    · simp
    · simp

theorem toDecimalAux_digits (fuel n : Nat) (h : n < fuel) :
    (toDecimalAux fuel n).all isDecDigit = true := by
  induction fuel generalizing n with
  | zero => omega
  | succ fuel ih =>
    rw [toDecimalAux]
    split
    · rename_i h10
      simp only [List.all_cons, List.all_nil, Bool.and_true]
      exact digitChar_isDecDigit n h10
    · have hd : n / 10 < n := Nat.div_lt_self (by omega) (by omega)
      rw [List.all_append]
      rw [ih (n / 10) (by omega)]
      simp [digitChar_isDecDigit (n % 10) (by omega)]

theorem digitsToNat_toDecimalAux (fuel n : Nat) (h : n < fuel) :
    digitsToNat (toDecimalAux fuel n) = n := by
  induction fuel generalizing n with
  | zero => omega
  | succ fuel ih =>
    rw [toDecimalAux]
    split
    · rename_i h10
      simp [digitsToNat, digitChar_val n h10]
    · rename_i h10
      have hd : n / 10 < n := Nat.div_lt_self (by omega) (by omega)
      rw [digitsToNat_append_singleton, ih (n / 10) (by omega),
        digitChar_val (n % 10) (by omega)]
      omega

theorem toDecimalAux_length (k : Nat) : ∀ fuel n : Nat, n < fuel → n < 10 ^ (k + 1) →
    (toDecimalAux fuel n).length ≤ k + 1 := by
  induction k with
  | zero =>
    intro fuel n hf h
    cases fuel with
    | zero => omega
    | succ fuel =>
      rw [toDecimalAux, if_pos (by simpa using h)]
      simp
  | succ k ih =>
    intro fuel n hf h
    cases fuel with
    | zero => omega
    | succ fuel =>
      rw [toDecimalAux]
      split
      · simp
      · rename_i h10
        have hd : n / 10 < n := Nat.div_lt_self (by omega) (by omega)
        have hdiv : n / 10 < 10 ^ (k + 1) := by
          rw [Nat.div_lt_iff_lt_mul (by omega)]
          calc n < 10 ^ (k + 1 + 1) := h
          _ = 10 ^ (k + 1) * 10 := by ring
        have := ih fuel (n / 10) (by omega) hdiv
        simp only [List.length_append, List.length_cons, List.length_nil]
        omega

theorem digitsToNat_toDecimal (n : Nat) : digitsToNat (toDecimal n) = n :=
  digitsToNat_toDecimalAux (n + 1) n (by omega)

theorem toDecimal_ne_nil (n : Nat) : toDecimal n ≠ [] :=
  toDecimalAux_ne_nil (n + 1) n (by omega)

theorem toDecimal_digits (n : Nat) : (toDecimal n).all isDecDigit = true :=
  toDecimalAux_digits (n + 1) n (by omega)

theorem toDecimal_length_le_four (n : Nat) (h : n ≤ 9999) : (toDecimal n).length ≤ 4 := by
  have : n < 10 ^ (3 + 1) := by norm_num; omega
  exact toDecimalAux_length 3 (n + 1) n (by omega) this

theorem printf04d_length (n : Nat) (h : n ≤ 9999) : (printf04d n).length = 4 := by
  have h4 := toDecimal_length_le_four n h
  simp only [printf04d, List.length_append, List.length_replicate]
  omega

theorem printf04d_digits (n : Nat) : (printf04d n).all isDecDigit = true := by
  rw [printf04d, List.all_append, toDecimal_digits, Bool.and_true]
  rw [List.all_eq_true]
  intro c hc
  rw [List.eq_of_mem_replicate hc]
  decide

theorem printf04d_ne_nil (n : Nat) : printf04d n ≠ [] := by
  rw [printf04d]
  intro h
  exact toDecimal_ne_nil n (List.append_eq_nil.mp h).2

theorem digitsToNat_replicate_zero (k : Nat) (ds : List Char) :
    digitsToNat (List.replicate k '0' ++ ds) = digitsToNat ds := by
  induction k with
  | zero => simp
  | succ k ih =>
    rw [List.replicate_succ, List.cons_append]
    simpa [digitsToNat] using ih

theorem digitsToNat_printf04d (n : Nat) : digitsToNat (printf04d n) = n := by
  rw [printf04d, digitsToNat_replicate_zero, digitsToNat_toDecimal]

/-! ### Lemmas: `pyInt` on digit strings -/

theorem isDecDigit_not_ws (c : Char) (h : isDecDigit c = true) : isPyWs c = false := by
  by_contra hw
  rw [Bool.not_eq_false] at hw
  simp only [isPyWs, pyWsChars, decide_eq_true_eq] at hw
  fin_cases hw <;> exact absurd h (by decide)

theorem dropWhile_eq_self_of_neg {p : Char → Bool} :
    ∀ l : List Char, (∀ c ∈ l, p c = false) → l.dropWhile p = l
  | [], _ => rfl
  | c :: l, h => by
    rw [List.dropWhile_cons, h c (List.mem_cons_self c l)]
    simp

theorem pyStrip_of_digits (cs : List Char) (h : cs.all isDecDigit = true) :
    pyStrip cs = cs := by
  have hmem : ∀ c ∈ cs, isPyWs c = false := fun c hc =>
    isDecDigit_not_ws c (List.all_eq_true.mp h c hc)
  rw [pyStrip, dropWhile_eq_self_of_neg cs hmem,
    dropWhile_eq_self_of_neg _ (fun c hc => hmem c (List.mem_reverse.mp hc)),
    List.reverse_reverse]

theorem pyInt_of_digits (cs : List Char) (hne : cs ≠ []) (h : cs.all isDecDigit = true) :
    pyInt cs = some (Int.ofNat (digitsToNat cs)) := by
  rw [pyInt, pyStrip_of_digits cs h]
  cases cs with
  | nil => exact absurd rfl hne
  | cons c rest =>
    have hc : isDecDigit c = true := List.all_eq_true.mp h c (List.mem_cons_self c rest)
    have hplus : ¬ c = '+' := fun e => absurd (e ▸ hc) (by decide)
    have hminus : ¬ c = '-' := fun e => absurd (e ▸ hc) (by decide)
    simp only [if_neg hplus, if_neg hminus, parseUnsigned, List.isEmpty_cons,
      Bool.false_eq_true, if_false, if_pos h]
    rfl

theorem pyInt_printf04d (n : Nat) : pyInt (printf04d n) = some (Int.ofNat n) := by
  rw [pyInt_of_digits (printf04d n) (printf04d_ne_nil n) (printf04d_digits n),
    digitsToNat_printf04d]

/-! ### Lemmas: `pySlice` and `readLoop` -/

theorem pyIdx_nat (len i : Nat) (h : i ≤ len) : pyIdx len (i : Int) = i := by
  unfold pyIdx
  rw [if_neg (by omega)]
  omega

theorem pySlice_nat (l : List Char) (a b : Nat) (ha : a ≤ l.length) (hb : b ≤ l.length) :
    pySlice l (a : Int) (b : Int) = (l.take b).drop a := by
  rw [pySlice, pyIdx_nat _ _ hb, pyIdx_nat _ _ ha]

theorem pySlice_zero_nat (l : List Char) (b : Nat) (hb : b ≤ l.length) :
    pySlice l 0 (b : Int) = l.take b := by
  have h0 : pyIdx l.length 0 = 0 := by unfold pyIdx; simp
  rw [pySlice, h0, pyIdx_nat _ _ hb, List.drop_zero]

theorem readLoop_skip (token : List Char) (prev : List (List Char)) :
    ∀ (rest : List (List Char)) (acc : List Char),
    (∀ l ∈ prev, pyEndsWith l (token ++ ['\n']) = false) →
    readLoop token (prev ++ rest) acc = readLoop token rest (acc ++ prev.flatten) := by
  induction prev with
  | nil => intro rest acc _; simp
  | cons l ls ih =>
    intro rest acc h
    rw [List.cons_append, readLoop, h l (List.mem_cons_self l ls)]
    simp only [Bool.false_eq_true, if_false]
    rw [ih rest (acc ++ l) (fun x hx => h x (List.mem_cons_of_mem l hx))]
    simp [List.append_assoc]

theorem readLoop_footer (token pre acc : List Char) (rc : Nat) (h : rc ≤ 9999) :
    readLoop token [pre ++ footerLine rc token] acc =
      ⟨acc ++ pre, LoopStatus.done (Int.ofNat rc)⟩ := by
  have h4 : (printf04d rc).length = 4 := printf04d_length rc h
  have hline : pre ++ footerLine rc token =
      (pre ++ printf04d rc) ++ (token ++ ['\n']) := by
    rw [footerLine]
    simp [List.append_assoc]
  have hlen : (pre ++ footerLine rc token).length =
      pre.length + 4 + token.length + 1 := by
    rw [hline]
    simp only [List.length_append, List.length_cons, List.length_nil, h4]
    omega
  have hEnds : pyEndsWith (pre ++ footerLine rc token) (token ++ ['\n']) = true := by
    rw [pyEndsWith]
    have hsl : (token ++ ['\n']).length = token.length + 1 := by simp
    have hdrop : (pre ++ footerLine rc token).length - (token ++ ['\n']).length =
        (pre ++ printf04d rc).length := by
      rw [hlen, hsl]
      simp only [List.length_append, h4]
      omega
    rw [hdrop, hline, List.drop_left]
    simp only [Bool.and_eq_true, decide_eq_true_eq]
    refine ⟨?_, trivial⟩
    simp only [List.length_append, List.length_cons, List.length_nil]
    omega
  rw [readLoop, hEnds]
  simp only [if_true]
  have hOff : ((pre ++ footerLine rc token).length : Int) - 1 - (token.length : Int) - 4 =
      ((pre.length : Nat) : Int) := by
    rw [hlen]; push_cast; ring
  rw [hOff]
  have hOff4 : ((pre.length : Nat) : Int) + 4 = (((pre.length + 4 : Nat)) : Int) := by
    push_cast; ring
  rw [hOff4]
  have hs1 : pySlice (pre ++ footerLine rc token) (pre.length : Int)
      ((pre.length + 4 : Nat) : Int) = printf04d rc := by
    rw [pySlice_nat _ _ _ (by rw [hlen]; omega) (by rw [hlen]; omega)]
    rw [hline]
    have hl : pre.length + 4 = (pre ++ printf04d rc).length := by simp [h4]
    rw [hl, List.take_left, List.drop_left]
  rw [hs1, pyInt_printf04d]
  have hs0 : pySlice (pre ++ footerLine rc token) (0 : Int) (pre.length : Int) = pre := by
    rw [pySlice_zero_nat _ _ (by rw [hlen]; omega), List.take_left]
  rw [hs0]

theorem call_outcome_def (args : List (List Char)) (env : List (List Char × List Char))
    (cap : Bool) (cwd : Option (List Char)) (lines : List (List Char)) (token : List Char) :
    (call args env cap cwd lines token).outcome =
      callOutcome args cap (readLoop token lines []) := rfl

theorem call_stdout_def (args : List (List Char)) (env : List (List Char × List Char))
    (cap : Bool) (cwd : Option (List Char)) (lines : List (List Char)) (token : List Char) :
    (call args env cap cwd lines token).stdoutBytes =
      if cap then [] else (readLoop token lines []).written := rfl

theorem callOutcome_done (args : List (List Char)) (cap : Bool) (lo : LoopOut) (rc : Int)
    (h : lo.status = LoopStatus.done rc) :
    callOutcome args cap lo =
      if rc = 0 then CallOutcome.ok (if cap then lo.written else [])
      else CallOutcome.err ⟨rc, args, if cap then some lo.written else none⟩ := by
  unfold callOutcome
  rw [h]
  by_cases h0 : rc = 0
  · simp only [h0, ne_eq, not_true_eq_false, if_false, if_true, if_pos rfl]
    cases cap <;> simp
  · simp [h0]

/-! ### The claims -/

/-- C1 (refuted as stated, a code bug): `environment_executor` does
tokenize the command line with shell word-splitting rules, but it
leaves `call`'s `capture_output` at its default `False`, so the
command's output is streamed to the log sink and the empty string is
returned: `environment_executor("echo $X", {"X": "val"})` yields `""`,
not `"val\n"`, even though the remote shell emitted `val\n`. -/
theorem environment_executor_returns_empty :
    shlexSplit ("echo $X".toList) = some ["echo".toList, "$X".toList] ∧
    environment_executor ("echo $X".toList) [("X".toList, "val".toList)]
        ["val\n".toList, footerLine 0 ("tok".toList)] ("tok".toList) =
      some ⟨"val\n".toList, CallOutcome.ok []⟩ :=
  ⟨by decide, by decide⟩

/-- C2: encoding an exit status in [0, 9999] as the footer line
`<4-digit zero-padded status><token>\n` and parsing it back through the
read loop's constant-offset rule recovers the original status, and the
footer contributes no output. -/
theorem footer_status_roundtrip (rc : Nat) (token : List Char) (h : rc ≤ 9999) :
    readLoop token [footerLine rc token] [] = ⟨[], LoopStatus.done (Int.ofNat rc)⟩ := by
  have hx := readLoop_footer token [] [] rc h
  simpa using hx

/-- Witness for C2 at status 7 and token `tok`. -/
theorem footer_status_roundtrip_witness :
    7 ≤ 9999 ∧
      readLoop ("tok".toList) [footerLine 7 ("tok".toList)] [] =
        ⟨[], LoopStatus.done (Int.ofNat 7)⟩ :=
  ⟨by omega, footer_status_roundtrip 7 ("tok".toList) (by omega)⟩

/-- C3: once the read loop has parsed an exit status, `call` raises a
`CalledProcessError` carrying that status, the original argument vector
and the captured output (`None` when capture was not requested) if and
only if the status is non-zero; a zero status returns the accumulated
text, the empty string when nothing was captured. -/
theorem call_failure_iff_nonzero_status (args : List (List Char))
    (env : List (List Char × List Char)) (cap : Bool) (cwd : Option (List Char))
    (lines : List (List Char)) (token : List Char) (rc : Int)
    (h : (readLoop token lines []).status = LoopStatus.done rc) :
    ((call args env cap cwd lines token).outcome =
        CallOutcome.err ⟨rc, args,
          if cap then some (readLoop token lines []).written else none⟩
      ↔ rc ≠ 0) ∧
    (rc = 0 →
      (call args env cap cwd lines token).outcome =
        CallOutcome.ok (if cap then (readLoop token lines []).written else [])) := by
  rw [call_outcome_def, callOutcome_done args cap _ rc h]
  by_cases h0 : rc = 0
  · rw [if_pos h0]
    refine ⟨⟨fun he => CallOutcome.noConfusion he, fun hne => absurd h0 hne⟩, fun _ => rfl⟩
  · rw [if_neg h0]
    exact ⟨⟨fun _ => h0, fun _ => rfl⟩, fun h0' => absurd h0' h0⟩

/-- Witness for C3: status 1, capture requested. -/
theorem call_failure_iff_nonzero_status_witness :
    (readLoop ("tok".toList) [footerLine 1 ("tok".toList)] []).status = LoopStatus.done 1 ∧
    (((call [['f']] [] true none [footerLine 1 ("tok".toList)] ("tok".toList)).outcome =
        CallOutcome.err ⟨1, [['f']],
          if true then some (readLoop ("tok".toList) [footerLine 1 ("tok".toList)] []).written
          else none⟩
      ↔ (1 : Int) ≠ 0) ∧
    ((1 : Int) = 0 →
      (call [['f']] [] true none [footerLine 1 ("tok".toList)] ("tok".toList)).outcome =
        CallOutcome.ok
          (if true then (readLoop ("tok".toList) [footerLine 1 ("tok".toList)] []).written
           else []))) :=
  ⟨by decide,
   call_failure_iff_nonzero_status [['f']] [] true none [footerLine 1 ("tok".toList)]
     ("tok".toList) 1 (by decide)⟩

/-- C4: the accumulated output never includes the footer bytes:
ordinary lines are appended whole, and from the footer line exactly the
prefix before the 4-digit status field is appended — the status digits,
the delimiter token and the trailing newline are excluded. -/
theorem output_excludes_footer_bytes (prev : List (List Char)) (pre token : List Char)
    (rc : Nat) (h9 : rc ≤ 9999)
    (hprev : ∀ l ∈ prev, pyEndsWith l (token ++ ['\n']) = false) :
    readLoop token (prev ++ [pre ++ footerLine rc token]) [] =
      ⟨prev.flatten ++ pre, LoopStatus.done (Int.ofNat rc)⟩ := by
  rw [readLoop_skip token prev _ [] hprev, readLoop_footer token pre _ rc h9]
  simp

/-- Witness for C4: one ordinary line, a footer line with an output
prefix on it, status 3. -/
theorem output_excludes_footer_bytes_witness :
    (3 ≤ 9999 ∧
      ∀ l ∈ [("out\n".toList)], pyEndsWith l ("tok".toList ++ ['\n']) = false) ∧
    readLoop ("tok".toList)
        ([("out\n".toList)] ++ [("x".toList) ++ footerLine 3 ("tok".toList)]) [] =
      ⟨[("out\n".toList)].flatten ++ "x".toList, LoopStatus.done (Int.ofNat 3)⟩ :=
  ⟨⟨by omega, by decide⟩,
   output_excludes_footer_bytes [("out\n".toList)] ("x".toList) ("tok".toList) 3
     (by omega) (by decide)⟩

/-- C5: the read loop stops at the first line whose trailing bytes
equal the delimiter token plus a newline and parses the exit status
from that very line, whatever lines would follow: an ordinary output
line that coincidentally ends this way terminates the protocol early,
with no guard against the misparse. -/
theorem readLoop_stops_at_first_token_line (token l acc : List Char)
    (rest : List (List Char)) (h : pyEndsWith l (token ++ ['\n']) = true) :
    readLoop token (l :: rest) acc = readLoop token [l] acc := by
  simp only [readLoop, h, if_true]

/-- Witness for C5: with token `T`, the ordinary output line `9999T\n`
preempts the real footer `0000T\n`, and the loop reports status 9999
although the command exited with 0. -/
theorem readLoop_stops_at_first_token_line_witness :
    pyEndsWith ("9999T\n".toList) ("T".toList ++ ['\n']) = true ∧
    readLoop ("T".toList) [("9999T\n".toList), ("0000T\n".toList)] [] =
      readLoop ("T".toList) [("9999T\n".toList)] [] ∧
    readLoop ("T".toList) [("9999T\n".toList)] [] = ⟨[], LoopStatus.done 9999⟩ :=
  ⟨by decide,
   readLoop_stops_at_first_token_line ("T".toList) ("9999T\n".toList) []
     [("0000T\n".toList)] (by decide),
   by decide⟩

/-- C6: for the same stream of output lines, the bytes written to the
live `sys.stdout` sink when capture is not requested equal, byte for
byte, the string `call` returns when capture is requested instead. -/
theorem streamed_equals_captured (args : List (List Char))
    (env : List (List Char × List Char)) (cwd : Option (List Char))
    (lines : List (List Char)) (token : List Char) (ret : List Char)
    (h : (call args env true cwd lines token).outcome = CallOutcome.ok ret) :
    (call args env false cwd lines token).stdoutBytes = ret := by
  rw [call_outcome_def] at h
  rw [call_stdout_def]
  simp only [Bool.false_eq_true, if_false]
  cases hst : (readLoop token lines []).status with
  | done rc =>
    rw [callOutcome_done args true _ rc hst] at h
    by_cases h0 : rc = 0
    · rw [if_pos h0, if_pos rfl] at h
      exact CallOutcome.ok.inj h
    · rw [if_neg h0] at h
      exact CallOutcome.noConfusion h
  | valueError => simp [callOutcome, hst] at h
  | hang => simp [callOutcome, hst] at h

/-- Witness for C6: the command prints `hi\n` and exits 0. -/
theorem streamed_equals_captured_witness :
    (call [] [] true none [("hi\n".toList), footerLine 0 ("tok".toList)]
        ("tok".toList)).outcome = CallOutcome.ok ("hi\n".toList) ∧
    (call [] [] false none [("hi\n".toList), footerLine 0 ("tok".toList)]
        ("tok".toList)).stdoutBytes = "hi\n".toList :=
  ⟨by decide,
   streamed_equals_captured [] [] none [("hi\n".toList), footerLine 0 ("tok".toList)]
     ("tok".toList) ("hi\n".toList) (by decide)⟩

/-- C7: for a directory, `copy_into` first issues a remote `mkdir -p`
through the Execution Protocol and then streams a tar archive through a
direct `docker exec` pipe rather than through the shared interactive
shell; for a single file it streams the raw bytes into a container-side
`cat > path` redirection. -/
theorem copy_into_effects (containerName fromPath toPath : List Char) :
    copy_into containerName fromPath toPath true =
      [Effect.protoCall ["mkdir".toList, "-p".toList, toPath],
       Effect.run
         (Cmd.sh ("tar cf - . | docker exec -i ".toList ++ containerName ++
                  " tar -xC ".toList ++ toPath ++ " -f -".toList))
         true (some fromPath)] ∧
    copy_into containerName fromPath toPath false =
      [Effect.run
         (Cmd.sh ("cat ".toList ++ fromPath ++ " | docker exec -i ".toList ++
                  containerName ++ " sh -c ".toList ++ [dq] ++ "cat > ".toList ++
                  toPath ++ [dq]))
         true none] :=
  ⟨rfl, rfl⟩

/-- C8: `__exit__` closes the shell's write channel, terminates and
waits on the shell process, and then force-removes the container
together with its anonymous volumes (`docker rm --force -v`), in that
order. -/
theorem release_effect_order (containerName : List Char) :
    dockerExit containerName =
      [Effect.closeStdin, Effect.terminate, Effect.waitProc,
       Effect.run
         (Cmd.argv ["docker".toList, "rm".toList, "--force".toList, "-v".toList,
                    containerName])
         false none] := rfl

/-- C9: the forced `docker rm` in `__exit__` is invoked without
`check=True`, so release completes without raising no matter what exit
status any of its spawned commands returns. -/
theorem release_ignores_rm_failure (containerName : List Char) (rcOf : Cmd → Int) :
    completesWithout (dockerExit containerName) rcOf = true := rfl

/-- C10: `copy_out` creates the host directory with `parents=True` and
`exist_ok=True` — so missing parents are created and an existing
directory does not make it fail — and the extraction step then runs
with that directory as its working directory. -/
theorem copy_out_effects (containerName fromPath toPath : List Char) :
    copy_out containerName fromPath toPath =
      [Effect.mkdir toPath true true,
       Effect.run
         (Cmd.sh ("docker exec -i ".toList ++ containerName ++ " tar -cC ".toList ++
                  fromPath ++ " -f - . | tar -xf -".toList))
         true (some toPath)] ∧
    (∀ pathExists parentMissing : Bool,
      mkdirRaises true true pathExists parentMissing = false) :=
  ⟨rfl, fun pathExists parentMissing => by cases pathExists <;> cases parentMissing <;> rfl⟩

end DockerContainer
